import Mathlib

/-!
Verification of the post-scoring module `scorers.py` of the
`mastodon_digest` repository.

The module defines two weighting strategies (`UniformWeight`,
`InverseFollowerWeight`), four scoring strategies built from them by
multiple inheritance (`SimpleScorer`, `SimpleWeightedScorer`,
`ExtendedSimpleScorer`, `ExtendedSimpleWeightedScorer`), and a
reflection-based registry `get_scorers`.

Embedding conventions:
* a post record (`ScoredPost.info` in the source, an external entity) is a
  record of its four numeric fields; the nested
  `info["account"]["followers_count"]` lookup is flattened into the field
  `followers_count`;
* field values are integers (`ℤ`); the assumed data model (non-negative
  values) appears as explicit hypotheses where a claim needs it;
* scores and weights are real numbers; the floating-point arithmetic of the
  source is idealised to exact real arithmetic;
* `scipy.stats.gmean` is an external boundary dependency; it is embedded by
  its mathematical definition `(v1 * ... * vn) ^ (1 / n)`, which is the
  contract the module relies on (it agrees with `exp (mean (log vi))` on
  positive inputs and yields `0` whenever some input is `0`);
* Python's method-resolution order is resolved statically: in
  `SimpleWeightedScorer.score`, `super().score(...)` dispatches to
  `SimpleScorer.score` with `cls = SimpleWeightedScorer`, whose inner
  `super().weight(...)` dispatches past `SimpleScorer` in the MRO
  `[SimpleWeightedScorer, InverseFollowerWeight, SimpleScorer,
  UniformWeight, Weight, Scorer, ABC, object]` to `UniformWeight.weight`;
  the outer `super().weight(...)` dispatches to
  `InverseFollowerWeight.weight`.  Likewise for the extended pair.
-/

/-- Post record as read by the scorers: the three engagement counters and
the author's follower count (`info["account"]["followers_count"]`). -/
structure ScoredPost where
  reblogs_count : ℤ
  favourites_count : ℤ
  replies_count : ℤ
  followers_count : ℤ

/-- Geometric mean of a list of reals, the contract of the external
boundary dependency `scipy.stats.gmean`: the n-th root of the product. -/
noncomputable def gmean (l : List ℝ) : ℝ :=
  l.prod ^ ((1 : ℝ) / l.length)

/-- `UniformWeight.weight`: `return 1`. -/
def UniformWeight.weight (_scored_post : ScoredPost) : ℝ := 1

/-- `InverseFollowerWeight.weight`: `0` for a zero-follower account,
otherwise `1 / sqrt(followers_count)`. -/
noncomputable def InverseFollowerWeight.weight (scored_post : ScoredPost) : ℝ :=
  if scored_post.followers_count = 0 then 0
  else 1 / Real.sqrt scored_post.followers_count

/-- `SimpleScorer.score`: geometric mean of reblogs and favourites times
`super().weight`, which resolves to `UniformWeight.weight`. -/
noncomputable def SimpleScorer.score (scored_post : ScoredPost) : ℝ :=
  gmean [(scored_post.reblogs_count : ℝ), (scored_post.favourites_count : ℝ)]
    * UniformWeight.weight scored_post

/-- `SimpleWeightedScorer.score`: `super().score` resolves (MRO) to
`SimpleScorer.score`, `super().weight` to `InverseFollowerWeight.weight`. -/
noncomputable def SimpleWeightedScorer.score (scored_post : ScoredPost) : ℝ :=
  SimpleScorer.score scored_post * InverseFollowerWeight.weight scored_post

/-- `ExtendedSimpleScorer.score`: geometric mean of reblogs, favourites and
replies times `super().weight`, which resolves to `UniformWeight.weight`. -/
noncomputable def ExtendedSimpleScorer.score (scored_post : ScoredPost) : ℝ :=
  gmean [(scored_post.reblogs_count : ℝ), (scored_post.favourites_count : ℝ),
    (scored_post.replies_count : ℝ)]
    * UniformWeight.weight scored_post

/-- `ExtendedSimpleWeightedScorer.score`: `super().score` resolves (MRO) to
`ExtendedSimpleScorer.score`, `super().weight` to
`InverseFollowerWeight.weight`. -/
noncomputable def ExtendedSimpleWeightedScorer.score (scored_post : ScoredPost) : ℝ :=
  ExtendedSimpleScorer.score scored_post * InverseFollowerWeight.weight scored_post

/- Helper facts about `gmean` on two- and three-element lists. -/

theorem gmean_pair (a b : ℝ) : gmean [a, b] = Real.sqrt (a * b) := by
  simp [gmean, Real.sqrt_eq_rpow]

theorem gmean_triple (a b c : ℝ) : gmean [a, b, c] = (a * (b * c)) ^ ((1 : ℝ) / 3) := by
  simp [gmean]

theorem sqrt_four : Real.sqrt 4 = 2 := by
  rw [show (4 : ℝ) = 2 ^ 2 by norm_num, Real.sqrt_sq (by norm_num : (0 : ℝ) ≤ 2)]

theorem sqrt_nine : Real.sqrt 9 = 3 := by
  rw [show (9 : ℝ) = 3 ^ 2 by norm_num, Real.sqrt_sq (by norm_num : (0 : ℝ) ≤ 3)]

theorem sqrt_hundred : Real.sqrt 100 = 10 := by
  rw [show (100 : ℝ) = 10 ^ 2 by norm_num, Real.sqrt_sq (by norm_num : (0 : ℝ) ≤ 10)]

/-- C7: `UniformWeight.weight` returns exactly `1` for every post, with no
precondition on the post's field values. -/
theorem uniformWeight_eq_one (p : ScoredPost) : UniformWeight.weight p = 1 := rfl

/-- C2: `InverseFollowerWeight.weight` returns `0` when the author's
follower count is `0`, and `1 / sqrt(followers_count)` when it is strictly
positive. -/
theorem inverseFollowerWeight_cases (p : ScoredPost) :
    (p.followers_count = 0 → InverseFollowerWeight.weight p = 0)
    ∧ (0 < p.followers_count →
      InverseFollowerWeight.weight p = 1 / Real.sqrt p.followers_count) := by
  constructor
  · intro h
    simp [InverseFollowerWeight.weight, h]
  · intro h
    simp [InverseFollowerWeight.weight, ne_of_gt h]

/-- Witness for C2 at follower counts `0` and `100`. -/
theorem inverseFollowerWeight_cases_witness :
    InverseFollowerWeight.weight ⟨4, 9, 0, 0⟩ = 0
    ∧ InverseFollowerWeight.weight ⟨4, 9, 0, 100⟩ = 1 / Real.sqrt (100 : ℤ) :=
  ⟨(inverseFollowerWeight_cases ⟨4, 9, 0, 0⟩).1 rfl,
   (inverseFollowerWeight_cases ⟨4, 9, 0, 100⟩).2 (by norm_num)⟩

/-- C1: each weighted scorer is the corresponding geometric mean times the
inverse-follower weight, and nothing else (the uniform factor is `1`); in
particular at reblogs=4, favourites=9, followers=100 the simple weighted
score is `6 * (1 / 10) = 0.6`. -/
theorem weighted_scorers_factorisation (p : ScoredPost) :
    SimpleWeightedScorer.score p
      = gmean [(p.reblogs_count : ℝ), (p.favourites_count : ℝ)]
        * InverseFollowerWeight.weight p
    ∧ ExtendedSimpleWeightedScorer.score p
      = gmean [(p.reblogs_count : ℝ), (p.favourites_count : ℝ),
          (p.replies_count : ℝ)]
        * InverseFollowerWeight.weight p
    ∧ SimpleWeightedScorer.score ⟨4, 9, 0, 100⟩ = (0.6 : ℝ) := by
  refine ⟨?_, ?_, ?_⟩
  · simp [SimpleWeightedScorer.score, SimpleScorer.score, UniformWeight.weight]
  · simp [ExtendedSimpleWeightedScorer.score, ExtendedSimpleScorer.score,
      UniformWeight.weight]
  · simp [SimpleWeightedScorer.score, SimpleScorer.score, UniformWeight.weight,
      InverseFollowerWeight.weight, gmean_pair]
    norm_num [sqrt_four, sqrt_nine, sqrt_hundred]

theorem gmean_of_zero_mem (l : List ℝ) (hl : l ≠ []) (h : (0 : ℝ) ∈ l) :
    gmean l = 0 := by
  have hprod : l.prod = 0 := List.prod_eq_zero h
  have hlen : ((l.length : ℝ)) ≠ 0 := by
    have h0 : l.length ≠ 0 := fun hlen0 => hl (List.length_eq_zero.mp hlen0)
    exact_mod_cast h0
  rw [gmean, hprod, Real.zero_rpow (one_div_ne_zero hlen)]

theorem gmean_nonneg (l : List ℝ) (h : 0 ≤ l.prod) : 0 ≤ gmean l :=
  Real.rpow_nonneg h _

/-- C6: the unweighted scorers return the bare geometric mean (weight
factor `1`) of their selected counters; at reblogs=4, favourites=9,
replies=16 the extended score is `576 ^ (1/3)`, which lies strictly
between `8.3203` and `8.3204`. -/
theorem unweighted_scorers_gmean (p : ScoredPost) :
    SimpleScorer.score p
      = gmean [(p.reblogs_count : ℝ), (p.favourites_count : ℝ)]
    ∧ ExtendedSimpleScorer.score p
      = gmean [(p.reblogs_count : ℝ), (p.favourites_count : ℝ),
          (p.replies_count : ℝ)]
    ∧ ExtendedSimpleScorer.score ⟨4, 9, 16, 0⟩ = (576 : ℝ) ^ ((1 : ℝ) / 3)
    ∧ (8.3203 : ℝ) < ExtendedSimpleScorer.score ⟨4, 9, 16, 0⟩
    ∧ ExtendedSimpleScorer.score ⟨4, 9, 16, 0⟩ < (8.3204 : ℝ) := by
  have hcube : ∀ a : ℝ, 0 ≤ a → ((a ^ (3 : ℕ) : ℝ)) ^ ((1 : ℝ) / 3) = a := by
    intro a ha
    rw [← Real.rpow_natCast a 3, ← Real.rpow_mul ha]
    norm_num
  have hval : ExtendedSimpleScorer.score ⟨4, 9, 16, 0⟩ = (576 : ℝ) ^ ((1 : ℝ) / 3) := by
    simp [ExtendedSimpleScorer.score, gmean, UniformWeight.weight]
    norm_num
  refine ⟨by simp [SimpleScorer.score, UniformWeight.weight],
    by simp [ExtendedSimpleScorer.score, UniformWeight.weight], hval, ?_, ?_⟩
  · calc (8.3203 : ℝ)
        = (((8.3203 : ℝ) ^ (3 : ℕ)) : ℝ) ^ ((1 : ℝ) / 3) := (hcube _ (by norm_num)).symm
      _ < (576 : ℝ) ^ ((1 : ℝ) / 3) :=
          Real.rpow_lt_rpow (by positivity) (by norm_num) (by norm_num)
      _ = ExtendedSimpleScorer.score ⟨4, 9, 16, 0⟩ := hval.symm
  · calc ExtendedSimpleScorer.score ⟨4, 9, 16, 0⟩
        = (576 : ℝ) ^ ((1 : ℝ) / 3) := hval
      _ < (((8.3204 : ℝ) ^ (3 : ℕ)) : ℝ) ^ ((1 : ℝ) / 3) :=
          Real.rpow_lt_rpow (by norm_num) (by norm_num) (by norm_num)
      _ = (8.3204 : ℝ) := hcube _ (by norm_num)

/-- C3: if any engagement counter aggregated by a strategy is `0`, that
strategy's score is exactly `0`, whatever the follower count. -/
theorem zero_counter_zero_score (p : ScoredPost) :
    (p.reblogs_count = 0 ∨ p.favourites_count = 0 →
      SimpleScorer.score p = 0 ∧ SimpleWeightedScorer.score p = 0)
    ∧ (p.reblogs_count = 0 ∨ p.favourites_count = 0 ∨ p.replies_count = 0 →
      ExtendedSimpleScorer.score p = 0 ∧ ExtendedSimpleWeightedScorer.score p = 0) := by
  constructor
  · intro h
    have hg : gmean [(p.reblogs_count : ℝ), (p.favourites_count : ℝ)] = 0 := by
      apply gmean_of_zero_mem _ (by simp)
      rcases h with h | h <;> simp [h]
    refine ⟨by simp [SimpleScorer.score, hg], ?_⟩
    simp [SimpleWeightedScorer.score, SimpleScorer.score, hg]
  · intro h
    have hg : gmean [(p.reblogs_count : ℝ), (p.favourites_count : ℝ),
        (p.replies_count : ℝ)] = 0 := by
      apply gmean_of_zero_mem _ (by simp)
      rcases h with h | h | h <;> simp [h]
    refine ⟨by simp [ExtendedSimpleScorer.score, hg], ?_⟩
    simp [ExtendedSimpleWeightedScorer.score, ExtendedSimpleScorer.score, hg]

/-- Witness for C3 at a post with zero reblogs and follower count 100. -/
theorem zero_counter_zero_score_witness :
    (SimpleScorer.score ⟨0, 9, 16, 100⟩ = 0
      ∧ SimpleWeightedScorer.score ⟨0, 9, 16, 100⟩ = 0)
    ∧ (ExtendedSimpleScorer.score ⟨0, 9, 16, 100⟩ = 0
      ∧ ExtendedSimpleWeightedScorer.score ⟨0, 9, 16, 100⟩ = 0) :=
  ⟨(zero_counter_zero_score ⟨0, 9, 16, 100⟩).1 (Or.inl rfl),
   (zero_counter_zero_score ⟨0, 9, 16, 100⟩).2 (Or.inl rfl)⟩

/-- C10: on the assumed data model the inverse-follower weight lies in
`[0, 1]`, so each weighted score is at most the corresponding unweighted
score. -/
theorem weighted_le_unweighted (p : ScoredPost)
    (hr : 0 ≤ p.reblogs_count) (hf : 0 ≤ p.favourites_count)
    (hrp : 0 ≤ p.replies_count) (hfo : 0 ≤ p.followers_count) :
    0 ≤ InverseFollowerWeight.weight p
    ∧ InverseFollowerWeight.weight p ≤ 1
    ∧ SimpleWeightedScorer.score p ≤ SimpleScorer.score p
    ∧ ExtendedSimpleWeightedScorer.score p ≤ ExtendedSimpleScorer.score p := by
  have ha : (0 : ℝ) ≤ (p.reblogs_count : ℝ) := by exact_mod_cast hr
  have hb : (0 : ℝ) ≤ (p.favourites_count : ℝ) := by exact_mod_cast hf
  have hc : (0 : ℝ) ≤ (p.replies_count : ℝ) := by exact_mod_cast hrp
  have hw0 : 0 ≤ InverseFollowerWeight.weight p := by
    unfold InverseFollowerWeight.weight
    split
    · exact le_refl 0
    · positivity
  have hw1 : InverseFollowerWeight.weight p ≤ 1 := by
    unfold InverseFollowerWeight.weight
    split
    · norm_num
    · rename_i h
      have h1 : (1 : ℝ) ≤ (p.followers_count : ℝ) := by
        have : 1 ≤ p.followers_count := by omega
        exact_mod_cast this
      have hs : 1 ≤ Real.sqrt p.followers_count := by
        rw [show (1 : ℝ) = Real.sqrt 1 by simp]
        exact Real.sqrt_le_sqrt h1
      rw [div_le_one (lt_of_lt_of_le one_pos hs)]
      exact hs
  have hS : 0 ≤ SimpleScorer.score p := by
    have := gmean_nonneg [(p.reblogs_count : ℝ), (p.favourites_count : ℝ)]
      (by simp; positivity)
    simpa [SimpleScorer.score, UniformWeight.weight] using this
  have hES : 0 ≤ ExtendedSimpleScorer.score p := by
    have := gmean_nonneg [(p.reblogs_count : ℝ), (p.favourites_count : ℝ),
      (p.replies_count : ℝ)] (by simp; positivity)
    simpa [ExtendedSimpleScorer.score, UniformWeight.weight] using this
  exact ⟨hw0, hw1, mul_le_of_le_one_right hS hw1, mul_le_of_le_one_right hES hw1⟩

/-- Witness for C10 at reblogs=4, favourites=9, replies=16, followers=100. -/
theorem weighted_le_unweighted_witness :
    0 ≤ InverseFollowerWeight.weight ⟨4, 9, 16, 100⟩
    ∧ InverseFollowerWeight.weight ⟨4, 9, 16, 100⟩ ≤ 1
    ∧ SimpleWeightedScorer.score ⟨4, 9, 16, 100⟩ ≤ SimpleScorer.score ⟨4, 9, 16, 100⟩
    ∧ ExtendedSimpleWeightedScorer.score ⟨4, 9, 16, 100⟩
      ≤ ExtendedSimpleScorer.score ⟨4, 9, 16, 100⟩ :=
  weighted_le_unweighted ⟨4, 9, 16, 100⟩ (by decide) (by decide) (by decide) (by decide)

/-!
Registry model.  `get_scorers` inspects the module's own namespace at call
time: `inspect.getmembers(module, inspect.isclass)` yields the classes
visible in the module, sorted by name (`ABC` is imported from `abc`; the
other eight are defined in the module; `ScoredPost` is imported only under
`TYPE_CHECKING` and is absent at runtime).  The comprehension keeps the
classes `c` with `c != Scorer and issubclass(c, Scorer)` and builds a dict
mapping `name.replace("Scorer", "")` to the class.  The dict is modelled as
the association list in insertion order; Python `issubclass` is the
reflexive-transitive closure of the direct base-class lists, and
`str.replace` is modelled directly (every non-overlapping occurrence,
left to right).
-/

/-- Classes visible in the module namespace at runtime. -/
inductive PyClass where
  | ABC
  | Weight
  | UniformWeight
  | InverseFollowerWeight
  | Scorer
  | SimpleScorer
  | SimpleWeightedScorer
  | ExtendedSimpleScorer
  | ExtendedSimpleWeightedScorer
deriving DecidableEq

/-- Direct base classes, as written in the source. -/
def bases : PyClass → List PyClass
  | .ABC => []
  | .Weight => [.ABC]
  | .UniformWeight => [.Weight]
  | .InverseFollowerWeight => [.Weight]
  | .Scorer => [.ABC]
  | .SimpleScorer => [.UniformWeight, .Scorer]
  | .SimpleWeightedScorer => [.InverseFollowerWeight, .SimpleScorer]
  | .ExtendedSimpleScorer => [.UniformWeight, .Scorer]
  | .ExtendedSimpleWeightedScorer => [.InverseFollowerWeight, .ExtendedSimpleScorer]

/-- Fuelled reflexive-transitive closure of `bases`. -/
def issubclassFuel : Nat → PyClass → PyClass → Bool
  | 0, _, _ => false
  | n + 1, c, d => c = d || (bases c).any fun b => issubclassFuel n b d

/-- Python `issubclass`; fuel 8 exceeds the depth of the class hierarchy. -/
def issubclass (c d : PyClass) : Bool := issubclassFuel 8 c d

/-- Model of Python `str.replace` on character lists: every non-overlapping
occurrence of `pat` is replaced by `repl`, scanning left to right; the fuel
is at least the length of the scanned list. -/
def replaceFuel (pat repl : List Char) : Nat → List Char → List Char
  | 0, s => s
  | fuel + 1, s =>
    match s with
    | [] => []
    | c :: rest =>
      if pat ≠ [] ∧ pat.isPrefixOf (c :: rest) then
        repl ++ replaceFuel pat repl fuel ((c :: rest).drop pat.length)
      else
        c :: replaceFuel pat repl fuel rest

/-- Model of Python `str.replace`. -/
def pyReplace (s pat repl : String) : String :=
  ⟨replaceFuel pat.data repl.data s.data.length s.data⟩

/-- Module members returned by `inspect.getmembers(..., inspect.isclass)`,
sorted by name as `getmembers` does. -/
def moduleClasses : List (String × PyClass) :=
  [("ABC", .ABC),
   ("ExtendedSimpleScorer", .ExtendedSimpleScorer),
   ("ExtendedSimpleWeightedScorer", .ExtendedSimpleWeightedScorer),
   ("InverseFollowerWeight", .InverseFollowerWeight),
   ("Scorer", .Scorer),
   ("SimpleScorer", .SimpleScorer),
   ("SimpleWeightedScorer", .SimpleWeightedScorer),
   ("UniformWeight", .UniformWeight),
   ("Weight", .Weight)]

/-- The list `scorers` of the source: classes other than `Scorer` that are
subclasses of `Scorer`. -/
def scorers : List (String × PyClass) :=
  moduleClasses.filter fun c => c.2 ≠ PyClass.Scorer ∧ issubclass c.2 PyClass.Scorer

/-- `get_scorers()`: the returned dict, as its association list in
insertion order. -/
def get_scorers : List (String × PyClass) :=
  scorers.map fun scorer => (pyReplace scorer.1 "Scorer" "", scorer.2)

/-- Derivation rule as the spec words it: strip a trailing `"Scorer"`
(six characters), otherwise keep the name unchanged. -/
def specDeriveKey (s : String) : String :=
  if "Scorer".data.isSuffixOf s.data then ⟨s.data.take (s.data.length - 6)⟩ else s

/-- C4: `get_scorers` returns exactly the four concrete strategies under
the keys `Simple`, `SimpleWeighted`, `ExtendedSimple`,
`ExtendedSimpleWeighted`, and no entry for the abstract base `Scorer`. -/
theorem get_scorers_registry :
    get_scorers
      = [("ExtendedSimple", .ExtendedSimpleScorer),
         ("ExtendedSimpleWeighted", .ExtendedSimpleWeightedScorer),
         ("Simple", .SimpleScorer),
         ("SimpleWeighted", .SimpleWeightedScorer)]
    ∧ PyClass.Scorer ∉ get_scorers.map Prod.snd := by
  constructor
  · rfl
  · decide

/-- C5: for every entity retained by `get_scorers`, the code's key
derivation (`str.replace`) coincides with stripping the literal suffix
`"Scorer"`, and every retained name does end in that suffix (so the no-op
fallback for suffix-less names is never exercised here). -/
theorem retained_keys_strip_suffix :
    ∀ c ∈ scorers,
      pyReplace c.1 "Scorer" "" = specDeriveKey c.1
      ∧ ("Scorer").data.isSuffixOf c.1.data = true := by
  decide

/-- Witness for C5 at the retained entity `SimpleScorer`. -/
theorem retained_keys_strip_suffix_witness :
    pyReplace "SimpleScorer" "Scorer" "" = specDeriveKey "SimpleScorer"
    ∧ ("Scorer").data.isSuffixOf ("SimpleScorer").data = true :=
  retained_keys_strip_suffix ("SimpleScorer", PyClass.SimpleScorer) (by decide)

/-!
Safety model for C8.  The raw post mirrors the dictionary shape actually
read by the source (`info["reblogs_count"]`, `info["favourites_count"]`,
`info["replies_count"]`, `info["account"]["followers_count"]`): each lookup
may fail, `sqrt` fails on a negative argument (Python `math.sqrt` raises
`ValueError`), and division fails on a zero divisor (`ZeroDivisionError`).
Each operation is re-read in the `Option` monad with those failure points
explicit; the safety theorem shows that on the assumed data model every
operation returns `some` of the value computed by the total embedding.
-/

/-- Author record with a possibly missing follower count. -/
structure RawAccount where
  followers_count : Option ℤ

/-- Post record with possibly missing fields, as looked up by the source. -/
structure RawScoredPost where
  reblogs_count : Option ℤ
  favourites_count : Option ℤ
  replies_count : Option ℤ
  account : Option RawAccount

/-- Square root with the failure mode of Python `math.sqrt`. -/
noncomputable def sqrtChecked (x : ℝ) : Option ℝ :=
  if x < 0 then none else some (Real.sqrt x)

/-- Division with the failure mode of Python `/`. -/
noncomputable def divChecked (a b : ℝ) : Option ℝ :=
  if b = 0 then none else some (a / b)

/-- `UniformWeight.weight` with explicit failure points (it has none). -/
def UniformWeight.weightChecked (_p : RawScoredPost) : Option ℝ :=
  some 1

/-- `InverseFollowerWeight.weight` with explicit failure points. -/
noncomputable def InverseFollowerWeight.weightChecked (p : RawScoredPost) : Option ℝ := do
  let acct ← p.account
  let fo ← acct.followers_count
  if fo = 0 then
    pure 0
  else do
    let s ← sqrtChecked (fo : ℝ)
    divChecked 1 s

/-- `SimpleScorer.score` with explicit failure points. -/
noncomputable def SimpleScorer.scoreChecked (p : RawScoredPost) : Option ℝ := do
  let r ← p.reblogs_count
  let f ← p.favourites_count
  let w ← UniformWeight.weightChecked p
  pure (gmean [(r : ℝ), (f : ℝ)] * w)

/-- `SimpleWeightedScorer.score` with explicit failure points. -/
noncomputable def SimpleWeightedScorer.scoreChecked (p : RawScoredPost) : Option ℝ := do
  let s ← SimpleScorer.scoreChecked p
  let w ← InverseFollowerWeight.weightChecked p
  pure (s * w)

/-- `ExtendedSimpleScorer.score` with explicit failure points. -/
noncomputable def ExtendedSimpleScorer.scoreChecked (p : RawScoredPost) : Option ℝ := do
  let r ← p.reblogs_count
  let f ← p.favourites_count
  let rp ← p.replies_count
  let w ← UniformWeight.weightChecked p
  pure (gmean [(r : ℝ), (f : ℝ), (rp : ℝ)] * w)

/-- `ExtendedSimpleWeightedScorer.score` with explicit failure points. -/
noncomputable def ExtendedSimpleWeightedScorer.scoreChecked (p : RawScoredPost) : Option ℝ := do
  let s ← ExtendedSimpleScorer.scoreChecked p
  let w ← InverseFollowerWeight.weightChecked p
  pure (s * w)

/-- C8: on the assumed data model (all fields present and non-negative)
every weight and score operation succeeds — no missing-field lookup, no
square root of a negative number, no division by zero — and returns the
value of the total embedding. -/
theorem operations_total_on_data_model (raw : RawScoredPost) (a : RawAccount)
    (r f rp fo : ℤ)
    (hr : raw.reblogs_count = some r) (hf : raw.favourites_count = some f)
    (hrp : raw.replies_count = some rp) (ha : raw.account = some a)
    (hfo : a.followers_count = some fo)
    (hr0 : 0 ≤ r) (hf0 : 0 ≤ f) (hrp0 : 0 ≤ rp) (hfo0 : 0 ≤ fo) :
    UniformWeight.weightChecked raw = some (UniformWeight.weight ⟨r, f, rp, fo⟩)
    ∧ InverseFollowerWeight.weightChecked raw
      = some (InverseFollowerWeight.weight ⟨r, f, rp, fo⟩)
    ∧ SimpleScorer.scoreChecked raw = some (SimpleScorer.score ⟨r, f, rp, fo⟩)
    ∧ SimpleWeightedScorer.scoreChecked raw
      = some (SimpleWeightedScorer.score ⟨r, f, rp, fo⟩)
    ∧ ExtendedSimpleScorer.scoreChecked raw
      = some (ExtendedSimpleScorer.score ⟨r, f, rp, fo⟩)
    ∧ ExtendedSimpleWeightedScorer.scoreChecked raw
      = some (ExtendedSimpleWeightedScorer.score ⟨r, f, rp, fo⟩) := by
  have hwu : UniformWeight.weightChecked raw = some (UniformWeight.weight ⟨r, f, rp, fo⟩) := rfl
  have hwi : InverseFollowerWeight.weightChecked raw
      = some (InverseFollowerWeight.weight ⟨r, f, rp, fo⟩) := by
    by_cases h0 : fo = 0
    · simp [InverseFollowerWeight.weightChecked, ha, hfo, h0,
        InverseFollowerWeight.weight]
    · have hpos : (0 : ℝ) < (fo : ℝ) := by
        have : 0 < fo := lt_of_le_of_ne hfo0 (Ne.symm h0)
        exact_mod_cast this
      have hsqrt : 0 < Real.sqrt (fo : ℝ) := Real.sqrt_pos.mpr hpos
      simp [InverseFollowerWeight.weightChecked, ha, hfo, h0, sqrtChecked,
        divChecked, not_lt.mpr (le_of_lt hpos), ne_of_gt hsqrt,
        (show ¬fo < 0 by omega), InverseFollowerWeight.weight]
  have hss : SimpleScorer.scoreChecked raw = some (SimpleScorer.score ⟨r, f, rp, fo⟩) := by
    simp [SimpleScorer.scoreChecked, hr, hf, UniformWeight.weightChecked,
      SimpleScorer.score, UniformWeight.weight]
  have hes : ExtendedSimpleScorer.scoreChecked raw
      = some (ExtendedSimpleScorer.score ⟨r, f, rp, fo⟩) := by
    simp [ExtendedSimpleScorer.scoreChecked, hr, hf, hrp,
      UniformWeight.weightChecked, ExtendedSimpleScorer.score, UniformWeight.weight]
  refine ⟨hwu, hwi, hss, ?_, hes, ?_⟩
  · rw [SimpleWeightedScorer.scoreChecked, hss, hwi]
    simp [SimpleWeightedScorer.score]
  · rw [ExtendedSimpleWeightedScorer.scoreChecked, hes, hwi]
    simp [ExtendedSimpleWeightedScorer.score]

/-- Concrete raw post for the C8 witness. -/
def rawExample : RawScoredPost :=
  ⟨some 4, some 9, some 16, some ⟨some 100⟩⟩

/-- Witness for C8 at reblogs=4, favourites=9, replies=16, followers=100. -/
theorem operations_total_on_data_model_witness :
    UniformWeight.weightChecked rawExample = some (UniformWeight.weight ⟨4, 9, 16, 100⟩)
    ∧ InverseFollowerWeight.weightChecked rawExample
      = some (InverseFollowerWeight.weight ⟨4, 9, 16, 100⟩)
    ∧ SimpleScorer.scoreChecked rawExample = some (SimpleScorer.score ⟨4, 9, 16, 100⟩)
    ∧ SimpleWeightedScorer.scoreChecked rawExample
      = some (SimpleWeightedScorer.score ⟨4, 9, 16, 100⟩)
    ∧ ExtendedSimpleScorer.scoreChecked rawExample
      = some (ExtendedSimpleScorer.score ⟨4, 9, 16, 100⟩)
    ∧ ExtendedSimpleWeightedScorer.scoreChecked rawExample
      = some (ExtendedSimpleWeightedScorer.score ⟨4, 9, 16, 100⟩) :=
  operations_total_on_data_model rawExample ⟨some 100⟩ 4 9 16 100
    rfl rfl rfl rfl rfl (by decide) (by decide) (by decide) (by decide)

/-!
Purity model for C9.  Each method call is re-read as a state transformer on
the post record: it returns its result together with the post record as it
stands after the call.  The bodies only read the record, so the translation
threads the record through unchanged wherever the source threads it through
a nested call.
-/

/-- `UniformWeight.weight` as a call on the post record. -/
def UniformWeight.weightCall (p : ScoredPost) : ℝ × ScoredPost :=
  (1, p)

/-- `InverseFollowerWeight.weight` as a call on the post record. -/
noncomputable def InverseFollowerWeight.weightCall (p : ScoredPost) : ℝ × ScoredPost :=
  if p.followers_count = 0 then (0, p)
  else (1 / Real.sqrt p.followers_count, p)

/-- `SimpleScorer.score` as a call on the post record: read the two
counters, then call `super().weight` (resolving to `UniformWeight`). -/
noncomputable def SimpleScorer.scoreCall (p : ScoredPost) : ℝ × ScoredPost :=
  let m := gmean [(p.reblogs_count : ℝ), (p.favourites_count : ℝ)]
  let wp := UniformWeight.weightCall p
  (m * wp.1, wp.2)

/-- `SimpleWeightedScorer.score` as a call on the post record. -/
noncomputable def SimpleWeightedScorer.scoreCall (p : ScoredPost) : ℝ × ScoredPost :=
  let sp := SimpleScorer.scoreCall p
  let wp := InverseFollowerWeight.weightCall sp.2
  (sp.1 * wp.1, wp.2)

/-- `ExtendedSimpleScorer.score` as a call on the post record. -/
noncomputable def ExtendedSimpleScorer.scoreCall (p : ScoredPost) : ℝ × ScoredPost :=
  let m := gmean [(p.reblogs_count : ℝ), (p.favourites_count : ℝ),
    (p.replies_count : ℝ)]
  let wp := UniformWeight.weightCall p
  (m * wp.1, wp.2)

/-- `ExtendedSimpleWeightedScorer.score` as a call on the post record. -/
noncomputable def ExtendedSimpleWeightedScorer.scoreCall (p : ScoredPost) : ℝ × ScoredPost :=
  let sp := ExtendedSimpleScorer.scoreCall p
  let wp := InverseFollowerWeight.weightCall sp.2
  (sp.1 * wp.1, wp.2)

/-- C9: every call returns the value of the corresponding pure function
together with the unchanged post record; hence invoking it twice on the
same record yields the same result both times and never mutates the
record. -/
theorem calls_pure_and_deterministic (p : ScoredPost) :
    UniformWeight.weightCall p = (UniformWeight.weight p, p)
    ∧ InverseFollowerWeight.weightCall p = (InverseFollowerWeight.weight p, p)
    ∧ SimpleScorer.scoreCall p = (SimpleScorer.score p, p)
    ∧ SimpleWeightedScorer.scoreCall p = (SimpleWeightedScorer.score p, p)
    ∧ ExtendedSimpleScorer.scoreCall p = (ExtendedSimpleScorer.score p, p)
    ∧ ExtendedSimpleWeightedScorer.scoreCall p = (ExtendedSimpleWeightedScorer.score p, p) := by
  have hwi : InverseFollowerWeight.weightCall p = (InverseFollowerWeight.weight p, p) := by
    rw [InverseFollowerWeight.weightCall, InverseFollowerWeight.weight]
    split <;> rfl
  refine ⟨rfl, hwi, rfl, ?_, rfl, ?_⟩
  · rw [SimpleWeightedScorer.scoreCall, SimpleWeightedScorer.score]
    rw [show SimpleScorer.scoreCall p = (SimpleScorer.score p, p) from rfl, hwi]
  · rw [ExtendedSimpleWeightedScorer.scoreCall, ExtendedSimpleWeightedScorer.score]
    rw [show ExtendedSimpleScorer.scoreCall p = (ExtendedSimpleScorer.score p, p) from rfl, hwi]
